import Mathlib

/-!
Shallow embedding of the Smart Study Planner core (the `Task`/`User`/`Planner`
aggregate and the Strategy-pattern object model) and proofs of the spec claims
about it.

Python `datetime` values are modelled as integers (only their ordering and
equality matter to this core); a nullable deadline is `Option Int`.  Python
exceptions are modelled as `Except String`, carrying the exception message.
Python lists are mutable references; where aliasing matters the embedding uses
an explicit heap mapping list ids to list contents.
-/

namespace StudyPlanner

/-- Embeds Python `str.lower()` (character-wise lowercasing; identical to the
source behaviour on the ASCII strategy names this core compares). -/
def pyLower (s : String) : String := ⟨s.data.map Char.toLower⟩

/-- Embeds Python `str.strip()`: removes leading and trailing whitespace. -/
def pyStrip (s : String) : String :=
  ⟨((s.data.dropWhile Char.isWhitespace).reverse.dropWhile
      Char.isWhitespace).reverse⟩

/-- Embeds `core/Task.py`: the `Task` value with its six private fields. -/
structure Task where
  taskid : Int
  priority : Int
  title : String
  deadline : Option Int
  duration : Int
  status : String
deriving DecidableEq, Repr

/-- Embeds `Task.__init__` (the `status` argument defaults to "pending" in the
source; callers here pass it explicitly).  The constructor performs no
validation of any field, mirroring the source. -/
def Task.init (taskid priority : Int) (title : String) (deadline : Option Int)
    (duration : Int) (status : String) : Task :=
  ⟨taskid, priority, title, deadline, duration, status⟩

/-- Embeds `Task.get_status`. -/
def Task.get_status (t : Task) : String := t.status

/-- Embeds `Task.get_priority`. -/
def Task.get_priority (t : Task) : Int := t.priority

/-- Embeds `Task.get_deadline`. -/
def Task.get_deadline (t : Task) : Option Int := t.deadline

/-- Embeds `Task.set_status`: accepts a new status only from the list
`["pending", "done"]`, otherwise raises `ValueError` with the constant
message from the source. -/
def Task.set_status (t : Task) (new_status : String) : Except String Task :=
  if new_status ∈ (["pending", "done"] : List String) then
    .ok { t with status := new_status }
  else
    .error "Status must be either \x27pending\x27 or \x27done\x27"

/-- Embeds the three concrete `StudyStrategy` subclasses as one sum type; each
variant carries the duration fields its Python class stores in `__init__`. -/
inductive Strategy where
  | pomodoro (work_duration break_duration : Int)
  | deepwork (work_duration break_duration : Int)
  | balanced (short_session long_session break_duration : Int)
deriving DecidableEq, Repr

/-- Embeds `StrategyFactory.create`: lowercases and strips the name, looks it
up among the three registered keys, constructs the strategy with its default
durations, and otherwise raises `ValueError` carrying the attempted name and
the list of valid options (the f-string from the source). -/
def StrategyFactory.create (strategy_name : String) : Except String Strategy :=
  let key := pyStrip (pyLower strategy_name)
  if key = "pomodoro" then .ok (.pomodoro 25 5)
  else if key = "deepwork" then .ok (.deepwork 90 15)
  else if key = "balanced" then .ok (.balanced 30 60 10)
  else
    .error ("❌ Unknown strategy \x27" ++ strategy_name ++
      "\x27. Valid options: [\x27pomodoro\x27, \x27deepwork\x27, \x27balanced\x27]")

/-- Decides whether the character sequence `needle` occurs contiguously inside
`hay`; used to check what an error message does or does not mention. -/
def containsSeq (needle : List Char) : List Char → Bool
  | [] => needle.isEmpty
  | c :: rest => needle.isPrefixOf (c :: rest) || containsSeq needle rest

/-- Embeds the duration selection in `BalancedStrategy.start_session`: "light"
uses the short session, "deep" the long session, and any other complexity —
including the default "medium" — uses the short session plus 15 minutes. -/
def BalancedStrategy.sessionDuration (short_session long_session : Int)
    (task_complexity : String) : Int :=
  if task_complexity = "light" then short_session
  else if task_complexity = "deep" then long_session
  else short_session + 15

/-- Observable outcome of a strategy method call.  The source methods only
print and sleep; the observable data of a call is which method ran, on which
strategy class, with which planned duration. -/
inductive SessionEvent where
  | sessionStarted (strategy : String) (minutes : Int)
  | breakTaken (strategy : String) (minutes : Int)
deriving DecidableEq, Repr

/-- Embeds a no-argument `start_session()` call on a strategy, as performed by
`Planner.execute_strategy`: Pomodoro and DeepWork use their fixed work
duration; Balanced uses its default `task_complexity="medium"`. -/
def Strategy.start_session : Strategy → SessionEvent
  | .pomodoro w _ => .sessionStarted "PomodoroStrategy" w
  | .deepwork w _ => .sessionStarted "DeepWorkStrategy" w
  | .balanced s l _ =>
      .sessionStarted "BalancedStrategy"
        (BalancedStrategy.sessionDuration s l "medium")

/-- Embeds `take_break()` on a strategy: each variant rests for its break
duration. -/
def Strategy.take_break : Strategy → SessionEvent
  | .pomodoro _ b => .breakTaken "PomodoroStrategy" b
  | .deepwork _ b => .breakTaken "DeepWorkStrategy" b
  | .balanced _ _ b => .breakTaken "BalancedStrategy" b

/-- Heap of Python list objects: maps a list id to its contents; `next` is the
first unallocated id. -/
structure Heap where
  lists : Nat → List Task
  next : Nat

/-- Allocates a fresh list object holding `l`, returning its id. -/
def Heap.alloc (h : Heap) (l : List Task) : Nat × Heap :=
  (h.next, ⟨Function.update h.lists h.next l, h.next + 1⟩)

/-- Reads the contents of the list object with id `r`. -/
def Heap.read (h : Heap) (r : Nat) : List Task := h.lists r

/-- Overwrites in place the contents of the list object with id `r`; models
any mutation of a Python list through a reference to it (append, remove,
reorder, slice assignment). -/
def Heap.write (h : Heap) (r : Nat) (l : List Task) : Heap :=
  ⟨Function.update h.lists r l, h.next⟩

/-- Models `lst.append(t)` through the reference `r`. -/
def Heap.appendTask (h : Heap) (r : Nat) (t : Task) : Heap :=
  h.write r (h.read r ++ [t])

/-- Embeds `core/user.py`: username, email, and the reference to the private
task list. -/
structure UserObj where
  username : String
  email : String
  tasksRef : Nat

/-- Embeds `User.__init__`: stores username and email and allocates a fresh
empty task list. -/
def User.init (h : Heap) (username email : String) : UserObj × Heap :=
  let a := h.alloc []
  (⟨username, email, a.1⟩, a.2)

/-- Embeds `User.get_tasks`: returns the internal list itself (its
reference), not a copy. -/
def User.get_tasks (u : UserObj) : Nat := u.tasksRef

/-- Embeds `User.add_task`: appends to the task list owned by the user. -/
def User.add_task (h : Heap) (u : UserObj) (t : Task) : Heap :=
  h.appendTask u.tasksRef t

/-- Embeds `User.view_tasks`: `list(self.__tasks)` allocates a new list
object with the same contents and returns it. -/
def User.view_tasks (h : Heap) (u : UserObj) : Nat × Heap :=
  h.alloc (h.read u.tasksRef)

/-- Embeds `core/planner.py`: the planner holds a user, a reference to its
task list, and the injected strategy.  The strategy field is an `Option`
because Python performs no check against passing `None` (the type hint is not
enforced) and `set_strategy` can store `None`. -/
structure PlannerObj where
  user : UserObj
  tasksRef : Nat
  strategy : Option Strategy

/-- Embeds `Planner.__init__`: `self.__tasks = [] if tasks is None else
tasks` — a fresh empty list when no list is passed, otherwise the list passed by the caller, that very object itself (aliased, not copied).  No field is validated. -/
def Planner.init (h : Heap) (user : UserObj) (strategy : Option Strategy)
    (tasks : Option Nat) : PlannerObj × Heap :=
  match tasks with
  | none =>
      let a := h.alloc []
      (⟨user, a.1, strategy⟩, a.2)
  | some r => (⟨user, r, strategy⟩, h)

/-- Embeds `Planner.get_tasks`: returns the internal list itself (its
reference), not a copy. -/
def Planner.get_tasks (p : PlannerObj) : Nat := p.tasksRef

/-- Embeds `Planner.get_strategy`. -/
def Planner.get_strategy (p : PlannerObj) : Option Strategy := p.strategy

/-- Embeds `Planner.set_strategy`. -/
def Planner.set_strategy (p : PlannerObj) (new_strategy : Option Strategy) :
    PlannerObj :=
  { p with strategy := new_strategy }

/-- Embeds `Planner.add_task`: appends to the task list of the planner. -/
def Planner.add_task (h : Heap) (p : PlannerObj) (t : Task) : Heap :=
  h.appendTask p.tasksRef t

/-- The dictionary `{"done": n, "pending": m}` returned by `show_stats`. -/
structure Stats where
  done : Nat
  pending : Nat
deriving DecidableEq, Repr

/-- Embeds `Planner.show_stats`: one count of tasks with status "done" and
one of tasks with status "pending". -/
def Planner.show_stats (h : Heap) (p : PlannerObj) : Stats :=
  ⟨(h.read p.tasksRef).countP (fun t => t.get_status == "done"),
   (h.read p.tasksRef).countP (fun t => t.get_status == "pending")⟩

/-- Embeds `Planner.filter_tasks`: the list comprehension keeping tasks whose
status equals the argument. -/
def Planner.filter_tasks (h : Heap) (p : PlannerObj) (by_status : String) :
    List Task :=
  (h.read p.tasksRef).filter (fun t => t.get_status == by_status)

/-- Stable ascending sort by an integer key: the embedding of Python
`sorted(lst, key=k)` (Timsort is stable; any stable ascending sort computes
the same list). -/
def sortByKey (k : Task → Int) (l : List Task) : List Task :=
  List.insertionSort (fun a b => k a ≤ k b) l

/-- Embeds `Planner.sort_tasks`: `sorted` by the deadline key when
`by_deadline` holds, by the priority key otherwise; the list held by the planner is
not touched.  Python raises a `TypeError` as soon as a `None` deadline is
compared against a datetime, so the deadline branch is meaningful — and is
only used in theorems — under the hypothesis that every task has a deadline,
where the `getD` default is never consulted. -/
def Planner.sort_tasks (h : Heap) (p : PlannerObj) (by_deadline : Bool) :
    List Task :=
  if by_deadline then
    sortByKey (fun t => t.get_deadline.getD 0) (h.read p.tasksRef)
  else
    sortByKey (fun t => t.get_priority) (h.read p.tasksRef)

/-- Embeds `Planner.execute_strategy`: raises when the strategy slot holds
`None` (a strategy object is always truthy), else calls `start_session()`
then `take_break()` on the injected strategy; the planner itself is returned
unchanged in the success case (the method mutates nothing). -/
def Planner.execute_strategy (p : PlannerObj) :
    Except String (List SessionEvent × PlannerObj) :=
  match p.strategy with
  | none => .error "No study strategy has been set for this planner."
  | some s => .ok ([s.start_session, s.take_break], p)

/-- C1: an input whose lowercased, trimmed form is one of the three tokens
yields the matching variant with its documented default durations
(Pomodoro 25/5, DeepWork 90/15, Balanced 30/60/10); any other input fails
with the UnknownStrategy error carrying the attempted name and listing
exactly the three valid options. -/
theorem strategyFactory_create_spec (name : String) :
    (pyStrip (pyLower name) = "pomodoro" →
      StrategyFactory.create name = .ok (.pomodoro 25 5)) ∧
    (pyStrip (pyLower name) = "deepwork" →
      StrategyFactory.create name = .ok (.deepwork 90 15)) ∧
    (pyStrip (pyLower name) = "balanced" →
      StrategyFactory.create name = .ok (.balanced 30 60 10)) ∧
    (pyStrip (pyLower name) ∉ (["pomodoro", "deepwork", "balanced"] : List String) →
      StrategyFactory.create name =
        .error ("❌ Unknown strategy \x27" ++ name ++
          "\x27. Valid options: [\x27pomodoro\x27, \x27deepwork\x27, \x27balanced\x27]")) := by
  refine ⟨fun h => ?_, fun h => ?_, fun h => ?_, fun h => ?_⟩
  · simp [StrategyFactory.create, h]
  · simp [StrategyFactory.create, h]
  · simp [StrategyFactory.create, h]
  · simp only [List.mem_cons, List.not_mem_nil, or_false, not_or] at h
    obtain ⟨h1, h2, h3⟩ := h
    simp [StrategyFactory.create, h1, h2, h3]

/-- Witness for C1 at concrete inputs: mixed case with whitespace resolves to
Pomodoro with defaults; an unknown name yields the error with the attempted
name and the three options. -/
theorem strategyFactory_create_spec_witness :
    StrategyFactory.create "  PoMoDoRo " = .ok (.pomodoro 25 5) ∧
    StrategyFactory.create "sprint" =
      .error "❌ Unknown strategy \x27sprint\x27. Valid options: [\x27pomodoro\x27, \x27deepwork\x27, \x27balanced\x27]" :=
  ⟨(strategyFactory_create_spec "  PoMoDoRo ").1 (by decide),
   by
    rw [(strategyFactory_create_spec "sprint").2.2.2 (by decide)]
    rfl⟩

/-- C2 (amended): `set_status` with a value outside {pending, done} fails,
leaving the task unchanged (the returned error carries the constant message,
which does not name the offending value), and with a value inside the set it
succeeds, the resulting task reporting that status. -/
theorem task_set_status_spec (t : Task) (s : String) :
    (s ∈ (["pending", "done"] : List String) →
      t.set_status s = .ok { t with status := s } ∧
      ({ t with status := s } : Task).get_status = s) ∧
    (s ∉ (["pending", "done"] : List String) →
      t.set_status s =
        .error "Status must be either \x27pending\x27 or \x27done\x27") := by
  unfold Task.set_status Task.get_status
  constructor
  · intro h
    simp [h]
  · intro h
    simp [h]

/-- Witness for C2 at a concrete task: "done" succeeds and is subsequently
reported; "archived" fails with the constant error message. -/
theorem task_set_status_spec_witness :
    (Task.init 1 2 "read" none 30 "pending").set_status "done" =
      .ok (Task.init 1 2 "read" none 30 "done") ∧
    (Task.init 1 2 "read" none 30 "pending").set_status "archived" =
      .error "Status must be either \x27pending\x27 or \x27done\x27" :=
  ⟨((task_set_status_spec (Task.init 1 2 "read" none 30 "pending") "done").1
      (by decide)).1,
   (task_set_status_spec (Task.init 1 2 "read" none 30 "pending") "archived").2
      (by decide)⟩

/-- Counterexample to C2 as stated: the error raised for the offending value
"archived" is the constant message, and that message does not contain the
offending value anywhere, so the error does not name the offending value. -/
theorem task_set_status_message_counterexample :
    (Task.init 1 2 "read" none 30 "pending").set_status "archived" =
      .error "Status must be either \x27pending\x27 or \x27done\x27" ∧
    containsSeq "archived".data
      "Status must be either \x27pending\x27 or \x27done\x27".data = false := by
  constructor
  · rfl
  · decide

theorem Heap.read_alloc_self (h : Heap) (l : List Task) :
    (h.alloc l).2.read (h.alloc l).1 = l := by
  simp [Heap.alloc, Heap.read]

theorem Heap.read_alloc_other (h : Heap) (l : List Task) (r : Nat)
    (hr : r ≠ h.next) : (h.alloc l).2.read r = h.read r := by
  simp [Heap.alloc, Heap.read, Function.update_noteq hr]

theorem Heap.read_write_self (h : Heap) (r : Nat) (l : List Task) :
    (h.write r l).read r = l := by
  simp [Heap.write, Heap.read]

theorem Heap.read_write_other (h : Heap) (r : Nat) (l : List Task) (r2 : Nat)
    (hr : r2 ≠ r) : (h.write r l).read r2 = h.read r2 := by
  simp [Heap.write, Heap.read, Function.update_noteq hr]

theorem Heap.read_appendTask_self (h : Heap) (r : Nat) (t : Task) :
    (h.appendTask r t).read r = h.read r ++ [t] :=
  Heap.read_write_self h r (h.read r ++ [t])

theorem Heap.read_appendTask_other (h : Heap) (r : Nat) (t : Task) (r2 : Nat)
    (hr : r2 ≠ r) : (h.appendTask r t).read r2 = h.read r2 :=
  Heap.read_write_other h r (h.read r ++ [t]) r2 hr

/-- C3: when a strategy is injected, `execute_strategy` produces exactly one
`start_session` call followed by exactly one `take_break` call on that
strategy, leaving the planner unchanged; when the strategy slot is empty, it
fails with the NoStrategyConfigured error and produces nothing. -/
theorem planner_execute_strategy_spec (p : PlannerObj) :
    (∀ s, p.strategy = some s →
      Planner.execute_strategy p =
        .ok ([s.start_session, s.take_break], p)) ∧
    (p.strategy = none →
      Planner.execute_strategy p =
        .error "No study strategy has been set for this planner.") := by
  constructor
  · intro s hs
    simp [Planner.execute_strategy, hs]
  · intro hs
    simp [Planner.execute_strategy, hs]

/-- Witness for C3: a planner holding a default Pomodoro strategy runs one
session then one break; a strategy-less planner fails. -/
theorem planner_execute_strategy_spec_witness :
    Planner.execute_strategy
        (⟨⟨"u", "e", 0⟩, 0, some (.pomodoro 25 5)⟩ : PlannerObj) =
      .ok ([.sessionStarted "PomodoroStrategy" 25,
            .breakTaken "PomodoroStrategy" 5],
           (⟨⟨"u", "e", 0⟩, 0, some (.pomodoro 25 5)⟩ : PlannerObj)) ∧
    Planner.execute_strategy (⟨⟨"u", "e", 0⟩, 0, none⟩ : PlannerObj) =
      .error "No study strategy has been set for this planner." :=
  ⟨(planner_execute_strategy_spec ⟨⟨"u", "e", 0⟩, 0,
      some (.pomodoro 25 5)⟩).1 (.pomodoro 25 5) rfl,
   (planner_execute_strategy_spec ⟨⟨"u", "e", 0⟩, 0, none⟩).2 rfl⟩

/-- Counterexample to C4 as stated: constructing a Planner with an absent
strategy is not surfaced as a failure — the constructor succeeds and the
resulting planner has a null active strategy. -/
theorem planner_init_absent_strategy_counterexample :
    Planner.get_strategy
        (Planner.init ⟨fun _ => [], 0⟩ ⟨"u", "e", 0⟩ none none).1 =
      none := rfl

/-- C4 (amended): after construction the tasks list is never null — a fresh
empty list is allocated when none is passed, and the list object passed by the caller is
used when one is — but the strategy is not required: the constructor accepts
an absent strategy without failure, and that absence surfaces as the
NoStrategyConfigured failure only when `execute_strategy` is called. -/
theorem planner_init_spec (h : Heap) (u : UserObj) (st : Option Strategy)
    (r : Nat) :
    ((Planner.init h u st none).2.read (Planner.init h u st none).1.tasksRef =
        [] ∧
      (Planner.init h u st none).1.tasksRef <
        (Planner.init h u st none).2.next) ∧
    ((Planner.init h u st (some r)).1.tasksRef = r ∧
      (Planner.init h u st (some r)).2 = h) ∧
    (st = none →
      Planner.execute_strategy (Planner.init h u st none).1 =
        .error "No study strategy has been set for this planner.") := by
  refine ⟨⟨?_, ?_⟩, ⟨rfl, rfl⟩, fun hst => ?_⟩
  · exact Heap.read_alloc_self h []
  · exact Nat.lt_succ_self h.next
  · subst hst
    rfl

/-- Witness for C4 (amended) at a concrete heap and user: the fresh planner
has an empty, validly allocated task list, a supplied list is aliased, and a
strategy-less planner fails on execution. -/
theorem planner_init_spec_witness :
    ((Planner.init ⟨fun _ => [], 0⟩ ⟨"u", "e", 0⟩ none none).2.read
        (Planner.init ⟨fun _ => [], 0⟩ ⟨"u", "e", 0⟩ none none).1.tasksRef =
      []) ∧
    (Planner.execute_strategy
        (Planner.init ⟨fun _ => [], 0⟩ ⟨"u", "e", 0⟩ none none).1 =
      .error "No study strategy has been set for this planner.") :=
  ⟨(planner_init_spec ⟨fun _ => [], 0⟩ ⟨"u", "e", 0⟩ none 0).1.1,
   (planner_init_spec ⟨fun _ => [], 0⟩ ⟨"u", "e", 0⟩ none 0).2.2 rfl⟩

/-- C7: Balanced session duration selection — "light" uses the short session,
"deep" uses the long session, and any other complexity (including the default
"medium", with which `start_session()` is invoked when called without an
argument) uses the short session plus 15 minutes; with the default durations
30/60 the "medium" session is 45 minutes. -/
theorem balanced_start_session_spec (short_session long_session b : Int)
    (c : String) :
    BalancedStrategy.sessionDuration short_session long_session "light" =
      short_session ∧
    BalancedStrategy.sessionDuration short_session long_session "deep" =
      long_session ∧
    (c ≠ "light" → c ≠ "deep" →
      BalancedStrategy.sessionDuration short_session long_session c =
        short_session + 15) ∧
    BalancedStrategy.sessionDuration 30 60 "medium" = 45 ∧
    (Strategy.balanced short_session long_session b).start_session =
      .sessionStarted "BalancedStrategy" (short_session + 15) := by
  refine ⟨?_, ?_, fun h1 h2 => ?_, rfl, rfl⟩
  · simp [BalancedStrategy.sessionDuration]
  · simp [BalancedStrategy.sessionDuration]
  · simp [BalancedStrategy.sessionDuration, h1, h2]

/-- Witness for C7 with defaults 30/60 and the default complexity "medium":
the session runs 45 minutes. -/
theorem balanced_start_session_spec_witness :
    BalancedStrategy.sessionDuration 30 60 "medium" = 30 + 15 :=
  (balanced_start_session_spec 30 60 10 "medium").2.2.1 (by decide) (by decide)

theorem filter_orderedInsert (k : Task → Int) (v : Int) (x : Task)
    (l : List Task) :
    (List.orderedInsert (fun a b => k a ≤ k b) x l).filter
        (fun t => k t == v) =
      if k x = v then x :: l.filter (fun t => k t == v)
      else l.filter (fun t => k t == v) := by
  induction l with
  | nil =>
      by_cases hx : k x = v <;>
        simp [List.orderedInsert, List.filter_cons, hx]
  | cons b l ih =>
      rw [List.orderedInsert]
      by_cases hxb : k x ≤ k b
      · rw [if_pos hxb]
        by_cases hx : k x = v <;> by_cases hb : k b = v <;>
          simp [List.filter_cons, hx, hb]
      · rw [if_neg hxb]
        have hblt : k b < k x := lt_of_not_le hxb
        by_cases hx : k x = v
        · have hb : ¬ k b = v := by
            rw [← hx]
            exact ne_of_lt hblt
          simp [List.filter_cons, hb, ih, hx]
        · by_cases hb : k b = v <;>
            simp [List.filter_cons, hb, ih, hx]

/-- Stability of `sortByKey`: the subsequence of elements sharing any fixed
key value is exactly the same, in the same order, as in the input. -/
theorem filter_sortByKey (k : Task → Int) (v : Int) (l : List Task) :
    (sortByKey k l).filter (fun t => k t == v) =
      l.filter (fun t => k t == v) := by
  induction l with
  | nil => rfl
  | cons a l ih =>
      have hstep : sortByKey k (a :: l) =
          List.orderedInsert (fun a b => k a ≤ k b) a (sortByKey k l) := rfl
      rw [hstep, filter_orderedInsert]
      by_cases ha : k a = v <;> simp [List.filter_cons, ha, ih]

theorem sortByKey_sorted (k : Task → Int) (l : List Task) :
    (sortByKey k l).Sorted (fun a b => k a ≤ k b) := by
  haveI : IsTotal Task (fun a b => k a ≤ k b) :=
    ⟨fun a b => le_total (k a) (k b)⟩
  haveI : IsTrans Task (fun a b => k a ≤ k b) :=
    ⟨fun _ _ _ hab hbc => le_trans hab hbc⟩
  exact List.sorted_insertionSort _ l

theorem sortByKey_perm (k : Task → Int) (l : List Task) :
    (sortByKey k l).Perm l :=
  List.perm_insertionSort _ l

/-- C5: `sort_tasks(by_deadline=False)` returns a permutation of the
tasks of the planner, ascending by priority (lower value first) and stable (the
subsequence at each priority value is preserved); under the precondition that
every task has a deadline, `sort_tasks(by_deadline=True)` likewise returns a
stable ascending ordering by deadline.  The list held by the planner is untouched:
both modes read the task list and build a new one. -/
theorem planner_sort_tasks_spec (h : Heap) (p : PlannerObj) :
    ((Planner.sort_tasks h p false).Perm (h.read p.tasksRef) ∧
      (Planner.sort_tasks h p false).Sorted
        (fun a b => a.get_priority ≤ b.get_priority) ∧
      ∀ v : Int,
        (Planner.sort_tasks h p false).filter
            (fun t => t.get_priority == v) =
          (h.read p.tasksRef).filter (fun t => t.get_priority == v)) ∧
    ((∀ t ∈ h.read p.tasksRef, t.get_deadline ≠ none) →
      (Planner.sort_tasks h p true).Perm (h.read p.tasksRef) ∧
      (Planner.sort_tasks h p true).Sorted
        (fun a b => a.get_deadline.getD 0 ≤ b.get_deadline.getD 0) ∧
      ∀ v : Int,
        (Planner.sort_tasks h p true).filter
            (fun t => t.get_deadline.getD 0 == v) =
          (h.read p.tasksRef).filter
            (fun t => t.get_deadline.getD 0 == v)) := by
  constructor
  · exact ⟨sortByKey_perm (fun t => t.get_priority) (h.read p.tasksRef),
      sortByKey_sorted (fun t => t.get_priority) (h.read p.tasksRef),
      fun v => filter_sortByKey (fun t => t.get_priority) v
        (h.read p.tasksRef)⟩
  · intro _
    exact ⟨sortByKey_perm (fun t => t.get_deadline.getD 0) (h.read p.tasksRef),
      sortByKey_sorted (fun t => t.get_deadline.getD 0) (h.read p.tasksRef),
      fun v => filter_sortByKey (fun t => t.get_deadline.getD 0) v
        (h.read p.tasksRef)⟩

/-- Witness for C5 on a concrete three-task heap (all deadlines present): the
deadline-mode conclusions hold with the precondition discharged, and both
modes compute the expected stable orderings. -/
theorem planner_sort_tasks_spec_witness :
    (∀ t ∈ (⟨fun _ => [⟨1, 2, "a", some 5, 10, "pending"⟩,
          ⟨2, 1, "b", some 5, 10, "pending"⟩,
          ⟨3, 2, "c", some 3, 10, "done"⟩], 1⟩ : Heap).read 0,
        t.get_deadline ≠ none) ∧
    (Planner.sort_tasks
        (⟨fun _ => [⟨1, 2, "a", some 5, 10, "pending"⟩,
          ⟨2, 1, "b", some 5, 10, "pending"⟩,
          ⟨3, 2, "c", some 3, 10, "done"⟩], 1⟩ : Heap)
        (⟨⟨"u", "e", 0⟩, 0, none⟩ : PlannerObj) true).Sorted
      (fun a b => a.get_deadline.getD 0 ≤ b.get_deadline.getD 0) ∧
    Planner.sort_tasks
        (⟨fun _ => [⟨1, 2, "a", some 5, 10, "pending"⟩,
          ⟨2, 1, "b", some 5, 10, "pending"⟩,
          ⟨3, 2, "c", some 3, 10, "done"⟩], 1⟩ : Heap)
        (⟨⟨"u", "e", 0⟩, 0, none⟩ : PlannerObj) true =
      [⟨3, 2, "c", some 3, 10, "done"⟩, ⟨1, 2, "a", some 5, 10, "pending"⟩,
        ⟨2, 1, "b", some 5, 10, "pending"⟩] ∧
    Planner.sort_tasks
        (⟨fun _ => [⟨1, 2, "a", some 5, 10, "pending"⟩,
          ⟨2, 1, "b", some 5, 10, "pending"⟩,
          ⟨3, 2, "c", some 3, 10, "done"⟩], 1⟩ : Heap)
        (⟨⟨"u", "e", 0⟩, 0, none⟩ : PlannerObj) false =
      [⟨2, 1, "b", some 5, 10, "pending"⟩, ⟨1, 2, "a", some 5, 10, "pending"⟩,
        ⟨3, 2, "c", some 3, 10, "done"⟩] :=
  ⟨by decide,
   ((planner_sort_tasks_spec
      (⟨fun _ => [⟨1, 2, "a", some 5, 10, "pending"⟩,
        ⟨2, 1, "b", some 5, 10, "pending"⟩,
        ⟨3, 2, "c", some 3, 10, "done"⟩], 1⟩ : Heap)
      (⟨⟨"u", "e", 0⟩, 0, none⟩ : PlannerObj)).2 (by decide)).2.1,
   by decide, by decide⟩

/-- C6: `filter_tasks` returns exactly the tasks whose status equals the
argument — membership-wise, count-wise, and as a sublist of the list of the planner (so the original relative order is preserved) — and returns the empty
list, never an error, when no task matches, whatever the status string. -/
theorem planner_filter_tasks_spec (h : Heap) (p : PlannerObj) (s : String) :
    (∀ t, t ∈ Planner.filter_tasks h p s ↔
      t ∈ h.read p.tasksRef ∧ Task.get_status t = s) ∧
    (Planner.filter_tasks h p s).Sublist (h.read p.tasksRef) ∧
    (∀ t, (Planner.filter_tasks h p s).count t =
      if Task.get_status t = s then (h.read p.tasksRef).count t else 0) ∧
    ((∀ t ∈ h.read p.tasksRef, Task.get_status t ≠ s) →
      Planner.filter_tasks h p s = []) := by
  refine ⟨?_, ?_, ?_, ?_⟩
  · intro t
    simp [Planner.filter_tasks, List.mem_filter]
  · exact List.filter_sublist _
  · intro t
    by_cases ht : Task.get_status t = s
    · rw [if_pos ht]
      exact List.count_filter (by simp [ht])
    · rw [if_neg ht]
      refine List.count_eq_zero.2 fun hmem => ?_
      have := (List.mem_filter.1 hmem).2
      simp [ht] at this
  · intro hnone
    refine List.filter_eq_nil_iff.2 fun t hmem => ?_
    simp [hnone t hmem]

/-- Witness for C6 on a concrete mixed-status heap: filtering "done" keeps
exactly the done tasks in order, and a status matching nothing yields []. -/
theorem planner_filter_tasks_spec_witness :
    Planner.filter_tasks
        (⟨fun _ => [⟨1, 1, "a", none, 10, "done"⟩,
          ⟨2, 2, "b", none, 10, "pending"⟩,
          ⟨3, 3, "c", none, 10, "done"⟩], 1⟩ : Heap)
        (⟨⟨"u", "e", 0⟩, 0, none⟩ : PlannerObj) "done" =
      [⟨1, 1, "a", none, 10, "done"⟩, ⟨3, 3, "c", none, 10, "done"⟩] ∧
    Planner.filter_tasks
        (⟨fun _ => [⟨1, 1, "a", none, 10, "done"⟩,
          ⟨2, 2, "b", none, 10, "pending"⟩,
          ⟨3, 3, "c", none, 10, "done"⟩], 1⟩ : Heap)
        (⟨⟨"u", "e", 0⟩, 0, none⟩ : PlannerObj) "someday" = [] :=
  ⟨by decide,
   (planner_filter_tasks_spec
      (⟨fun _ => [⟨1, 1, "a", none, 10, "done"⟩,
        ⟨2, 2, "b", none, 10, "pending"⟩,
        ⟨3, 3, "c", none, 10, "done"⟩], 1⟩ : Heap)
      (⟨⟨"u", "e", 0⟩, 0, none⟩ : PlannerObj) "someday").2.2.2 (by decide)⟩

theorem countP_pair_le_length {α : Type} (p q : α → Bool) (l : List α)
    (hpq : ∀ a, p a = true → q a = true → False) :
    l.countP p + l.countP q ≤ l.length := by
  induction l with
  | nil => simp
  | cons a l ih =>
      simp only [List.countP_cons, List.length_cons]
      by_cases hp : p a = true
      · have hq : ¬ q a = true := fun hq => hpq a hp hq
        simp [hp, hq]
        omega
      · by_cases hq : q a = true <;> simp [hp, hq] <;> omega

theorem countP_pair_lt_length {α : Type} (p q : α → Bool) (l : List α)
    (hpq : ∀ a, p a = true → q a = true → False)
    (t : α) (ht : t ∈ l) (hp : p t = false) (hq : q t = false) :
    l.countP p + l.countP q < l.length := by
  induction l with
  | nil => cases ht
  | cons a l ih =>
      simp only [List.countP_cons, List.length_cons]
      rcases List.mem_cons.1 ht with rfl | hmem
      · have hle := countP_pair_le_length p q l hpq
        simp [hp, hq]
        omega
      · have hlt := ih hmem
        by_cases hpa : p a = true
        · have hqa : ¬ q a = true := fun h2 => hpq a hpa h2
          simp [hpa, hqa]
          omega
        · by_cases hqa : q a = true <;> simp [hpa, hqa] <;> omega

/-- C9: the Task constructor validates nothing — any status string, also one
outside {pending, done}, is stored and reported back by `get_status` — and a
task with such a status is counted in neither bucket of `show_stats`, whose
`done + pending` total is always at most the number of tasks and drops
strictly below it as soon as such a task is present. -/
theorem task_init_unvalidated_stats_undercount (taskid priority : Int)
    (title : String) (deadline : Option Int) (duration : Int) (s : String)
    (h : Heap) (p : PlannerObj) :
    (Task.init taskid priority title deadline duration s).get_status = s ∧
    (Planner.show_stats h p).done + (Planner.show_stats h p).pending ≤
      (h.read p.tasksRef).length ∧
    ((∃ t ∈ h.read p.tasksRef,
        Task.get_status t ≠ "pending" ∧ Task.get_status t ≠ "done") →
      (Planner.show_stats h p).done + (Planner.show_stats h p).pending <
        (h.read p.tasksRef).length) := by
  have hdisj : ∀ a : Task, (Task.get_status a == "done") = true →
      (Task.get_status a == "pending") = true → False := by
    intro a h1 h2
    rw [beq_iff_eq] at h1 h2
    rw [h1] at h2
    exact absurd h2 (by decide)
  refine ⟨rfl, ?_, ?_⟩
  · exact countP_pair_le_length _ _ _ hdisj
  · rintro ⟨t, hmem, hpend, hdone⟩
    exact countP_pair_lt_length _ _ _ hdisj t hmem
      (by simpa using hdone) (by simpa using hpend)

/-- Witness for C9: a freshly constructed task stores the status "archived";
on a heap with one pending, one done and one archived task, `show_stats`
returns 1/1 and its total 2 is strictly below the task count 3. -/
theorem task_init_unvalidated_stats_undercount_witness :
    (Task.init 3 3 "c" none 10 "archived").get_status = "archived" ∧
    Planner.show_stats
        (⟨fun _ => [⟨1, 1, "a", none, 10, "pending"⟩,
          ⟨2, 2, "b", none, 10, "done"⟩,
          ⟨3, 3, "c", none, 10, "archived"⟩], 1⟩ : Heap)
        (⟨⟨"u", "e", 0⟩, 0, none⟩ : PlannerObj) = ⟨1, 1⟩ ∧
    (Planner.show_stats
        (⟨fun _ => [⟨1, 1, "a", none, 10, "pending"⟩,
          ⟨2, 2, "b", none, 10, "done"⟩,
          ⟨3, 3, "c", none, 10, "archived"⟩], 1⟩ : Heap)
        (⟨⟨"u", "e", 0⟩, 0, none⟩ : PlannerObj)).done +
      (Planner.show_stats
        (⟨fun _ => [⟨1, 1, "a", none, 10, "pending"⟩,
          ⟨2, 2, "b", none, 10, "done"⟩,
          ⟨3, 3, "c", none, 10, "archived"⟩], 1⟩ : Heap)
        (⟨⟨"u", "e", 0⟩, 0, none⟩ : PlannerObj)).pending <
      ((⟨fun _ => [⟨1, 1, "a", none, 10, "pending"⟩,
          ⟨2, 2, "b", none, 10, "done"⟩,
          ⟨3, 3, "c", none, 10, "archived"⟩], 1⟩ : Heap).read 0).length :=
  ⟨(task_init_unvalidated_stats_undercount 3 3 "c" none 10 "archived"
      (⟨fun _ => [], 0⟩ : Heap) (⟨⟨"u", "e", 0⟩, 0, none⟩ : PlannerObj)).1,
   by decide,
   (task_init_unvalidated_stats_undercount 3 3 "c" none 10 "archived"
      (⟨fun _ => [⟨1, 1, "a", none, 10, "pending"⟩,
        ⟨2, 2, "b", none, 10, "done"⟩,
        ⟨3, 3, "c", none, 10, "archived"⟩], 1⟩ : Heap)
      (⟨⟨"u", "e", 0⟩, 0, none⟩ : PlannerObj)).2.2
     ⟨⟨3, 3, "c", none, 10, "archived"⟩, by decide, by decide, by decide⟩⟩

/-- C8: `view_tasks` returns a snapshot copy of the task list of the user: a fresh
list object with the same contents, distinct from the internal one, and any
mutation of the returned object leaves the internal list — as read through
`get_tasks` or through a later `view_tasks` — unchanged. -/
theorem user_view_tasks_snapshot (h : Heap) (u : UserObj)
    (hwf : u.tasksRef < h.next) :
    ((User.view_tasks h u).2.read (User.view_tasks h u).1 =
      h.read u.tasksRef) ∧
    (User.view_tasks h u).1 ≠ User.get_tasks u ∧
    (∀ l2, ((User.view_tasks h u).2.write (User.view_tasks h u).1 l2).read
        (User.get_tasks u) = h.read u.tasksRef) ∧
    (∀ l2, (User.view_tasks ((User.view_tasks h u).2.write
          (User.view_tasks h u).1 l2) u).2.read
        (User.view_tasks ((User.view_tasks h u).2.write
          (User.view_tasks h u).1 l2) u).1 = h.read u.tasksRef) := by
  have hne : u.tasksRef ≠ h.next := Nat.ne_of_lt hwf
  have hmut : ∀ l2, (((User.view_tasks h u).2.write
      (User.view_tasks h u).1 l2)).read u.tasksRef = h.read u.tasksRef := by
    intro l2
    rw [show (User.view_tasks h u).1 = h.next from rfl]
    rw [show (User.view_tasks h u).2 = (h.alloc (h.read u.tasksRef)).2 from
      rfl]
    rw [Heap.read_write_other _ _ _ _ hne]
    exact Heap.read_alloc_other h _ _ hne
  refine ⟨Heap.read_alloc_self h _, hne.symm, hmut, fun l2 => ?_⟩
  rw [show ∀ h3 : Heap, (User.view_tasks h3 u).2.read
      (User.view_tasks h3 u).1 = h3.read u.tasksRef from
    fun h3 => Heap.read_alloc_self h3 _]
  exact hmut l2

/-- Witness for C8 on a concrete one-task heap: the snapshot has the same
contents, lives at a fresh id, and overwriting it (here: emptying it) leaves
the internal list of the user intact for both read paths. -/
theorem user_view_tasks_snapshot_witness :
    ((User.view_tasks
        (⟨fun _ => [⟨1, 1, "a", none, 10, "pending"⟩], 1⟩ : Heap)
        (⟨"u", "e", 0⟩ : UserObj)).2.read
      (User.view_tasks
        (⟨fun _ => [⟨1, 1, "a", none, 10, "pending"⟩], 1⟩ : Heap)
        (⟨"u", "e", 0⟩ : UserObj)).1 =
      [⟨1, 1, "a", none, 10, "pending"⟩]) ∧
    (((User.view_tasks
        (⟨fun _ => [⟨1, 1, "a", none, 10, "pending"⟩], 1⟩ : Heap)
        (⟨"u", "e", 0⟩ : UserObj)).2.write
      (User.view_tasks
        (⟨fun _ => [⟨1, 1, "a", none, 10, "pending"⟩], 1⟩ : Heap)
        (⟨"u", "e", 0⟩ : UserObj)).1 []).read
      (User.get_tasks (⟨"u", "e", 0⟩ : UserObj)) =
      [⟨1, 1, "a", none, 10, "pending"⟩]) :=
  ⟨(user_view_tasks_snapshot
      (⟨fun _ => [⟨1, 1, "a", none, 10, "pending"⟩], 1⟩ : Heap)
      (⟨"u", "e", 0⟩ : UserObj) (by decide)).1,
   (user_view_tasks_snapshot
      (⟨fun _ => [⟨1, 1, "a", none, 10, "pending"⟩], 1⟩ : Heap)
      (⟨"u", "e", 0⟩ : UserObj) (by decide)).2.2.1 []⟩

/-- C10: `Planner.get_tasks` and `User.get_tasks` return the internal list
object itself, not a copy: appending a task through the returned reference
changes the state later observed by `show_stats`, `filter_tasks` and
`view_tasks`; only `view_tasks` returns a fresh (defensively copied)
object. -/
theorem get_tasks_returns_internal_list (h : Heap) (p : PlannerObj)
    (u : UserObj) (t : Task) (s : String) :
    Planner.get_tasks p = p.tasksRef ∧
    User.get_tasks u = u.tasksRef ∧
    Planner.show_stats (h.appendTask (Planner.get_tasks p) t) p =
      ⟨(Planner.show_stats h p).done +
          (if Task.get_status t == "done" then 1 else 0),
        (Planner.show_stats h p).pending +
          (if Task.get_status t == "pending" then 1 else 0)⟩ ∧
    Planner.filter_tasks (h.appendTask (Planner.get_tasks p) t) p s =
      Planner.filter_tasks h p s ++
        (if Task.get_status t == s then [t] else []) ∧
    (User.view_tasks (h.appendTask (User.get_tasks u) t) u).2.read
        (User.view_tasks (h.appendTask (User.get_tasks u) t) u).1 =
      h.read u.tasksRef ++ [t] ∧
    (u.tasksRef < h.next → (User.view_tasks h u).1 ≠ User.get_tasks u) := by
  refine ⟨rfl, rfl, ?_, ?_, ?_, fun hwf => (Nat.ne_of_lt hwf).symm⟩
  · show Planner.show_stats (h.appendTask p.tasksRef t) p = _
    simp [Planner.show_stats, Heap.read_appendTask_self, List.countP_append,
      List.countP_cons]
  · show Planner.filter_tasks (h.appendTask p.tasksRef t) p s = _
    simp [Planner.filter_tasks, Heap.read_appendTask_self, List.filter_append,
      List.filter_cons]
  · rw [show ∀ h3 : Heap, (User.view_tasks h3 u).2.read
        (User.view_tasks h3 u).1 = h3.read u.tasksRef from
      fun h3 => Heap.read_alloc_self h3 _]
    exact Heap.read_appendTask_self h u.tasksRef t

/-- Witness for C10: on a concrete heap holding one pending task, appending a
done task through `get_tasks` bumps the `done` count seen by `show_stats`,
and the freshness conclusion holds for the concrete user. -/
theorem get_tasks_returns_internal_list_witness :
    Planner.show_stats
        ((⟨fun _ => [⟨1, 1, "a", none, 10, "pending"⟩], 1⟩ : Heap).appendTask
          (Planner.get_tasks (⟨⟨"u", "e", 0⟩, 0, none⟩ : PlannerObj))
          ⟨2, 2, "b", none, 10, "done"⟩)
        (⟨⟨"u", "e", 0⟩, 0, none⟩ : PlannerObj) = ⟨1, 1⟩ ∧
    (User.view_tasks (⟨fun _ => [⟨1, 1, "a", none, 10, "pending"⟩], 1⟩ : Heap)
        (⟨"u", "e", 0⟩ : UserObj)).1 ≠
      User.get_tasks (⟨"u", "e", 0⟩ : UserObj) :=
  ⟨by
    rw [(get_tasks_returns_internal_list
      (⟨fun _ => [⟨1, 1, "a", none, 10, "pending"⟩], 1⟩ : Heap)
      (⟨⟨"u", "e", 0⟩, 0, none⟩ : PlannerObj) (⟨"u", "e", 0⟩ : UserObj)
      ⟨2, 2, "b", none, 10, "done"⟩ "done").2.2.1]
    decide,
   (get_tasks_returns_internal_list
      (⟨fun _ => [⟨1, 1, "a", none, 10, "pending"⟩], 1⟩ : Heap)
      (⟨⟨"u", "e", 0⟩, 0, none⟩ : PlannerObj) (⟨"u", "e", 0⟩ : UserObj)
      ⟨2, 2, "b", none, 10, "done"⟩ "done").2.2.2.2.2 (by decide)⟩

end StudyPlanner
